import Mathlib

/-!
Verification of the call-center dashboard's filter-and-aggregate pipeline
(`app.py`): sentiment classification, row normalization, the four-clause
filter applied in `update_graphs`, the five chart aggregations, and the
SQLite-backed history of saved filters.

Conventions of the embedding:
* pandas cells that may be missing (`NaN` / `NaT`) are `Option` values;
  a comparison against a missing cell is `false`, mirroring IEEE-754
  comparisons against `NaN` used by `classify_sentiment`.
* numeric cells (satisfaction ratings, durations in seconds) are `ℚ`;
  dates are year/month/day triples ordered chronologically.
* the data frame is a `List` of rows; pandas boolean-mask filtering is
  `List.filter`, and `groupby(...).size()` is counting over the
  deduplicated list of keys in order of first appearance.
-/

namespace CallCenter

/-- Sentiment labels produced by `classify_sentiment` in `app.py`. -/
inductive Sentiment : Type
  | Positive
  | Neutral
  | Negative
deriving DecidableEq, Repr

/-- Comparison `x <= cell` against a possibly-missing numeric cell: `false`
when the cell is `NaN`, exactly as in Python float semantics. -/
def cellGe (r : Option ℚ) (x : ℚ) : Bool :=
  match r with
  | none => false
  | some v => decide (x ≤ v)

/-- Comparison `cell == x` against a possibly-missing numeric cell: `false`
when the cell is `NaN`. -/
def cellEq (r : Option ℚ) (x : ℚ) : Bool :=
  match r with
  | none => false
  | some v => decide (v = x)

/-- `classify_sentiment` (app.py lines 19-25): `rating >= 4` is Positive,
`rating == 3` is Neutral, everything else is Negative. -/
def classify_sentiment (rating : ℚ) : Sentiment :=
  if 4 ≤ rating then Sentiment.Positive
  else if rating = 3 then Sentiment.Neutral
  else Sentiment.Negative

/-- `classify_sentiment` applied elementwise to the `Satisfaction rating`
column (app.py line 27), where a cell may be `NaN`: both branches' tests
are `false` on `NaN`, falling through to Negative. -/
def classifySentimentCell (r : Option ℚ) : Sentiment :=
  if cellGe r 4 then Sentiment.Positive
  else if cellEq r 3 then Sentiment.Neutral
  else Sentiment.Negative

/-- Calendar date, as produced by `pd.to_datetime` on the `Date` column. -/
structure Date : Type where
  year : ℕ
  month : ℕ
  day : ℕ
deriving DecidableEq, Repr

/-- Chronological order on dates (pandas datetime comparison). -/
def Date.le (a b : Date) : Bool :=
  decide (a.year < b.year ∨ (a.year = b.year ∧
    (a.month < b.month ∨ (a.month = b.month ∧ a.day ≤ b.day))))

/-- Raw data-frame row after the module-level parsing steps of app.py
lines 27-29: the rating cell may be `NaN`, `Date` and `AvgTalkDuration`
are `NaT`/`NaN` (`none`) when `errors="coerce"` failed to parse, and
`Resolved` may be a missing cell. -/
structure RawRow : Type where
  rating : Option ℚ
  date : Option Date
  duration : Option ℚ
  resolved : Option String
deriving DecidableEq, Repr

/-- The derived `Sentiment` column cell (app.py line 27): always present,
since `classify_sentiment` returns a string for every input cell. -/
def sentimentCol (row : RawRow) : Option Sentiment :=
  some (classifySentimentCell row.rating)

/-- Whether `df.dropna(subset=["Date", "AvgTalkDuration", "Sentiment",
"Resolved"])` (app.py line 30) keeps the row. -/
def keepRow (row : RawRow) : Bool :=
  row.date.isSome && row.duration.isSome && (sentimentCol row).isSome &&
    row.resolved.isSome

/-- Normalized call record: a row surviving `dropna`, with its derived
sentiment. The rating cell itself is not in the `dropna` subset and may
still be missing. -/
structure CallRecord : Type where
  rating : Option ℚ
  date : Date
  duration : ℚ
  resolved : String
  sentiment : Sentiment
deriving DecidableEq, Repr

/-- Module-level normalization (app.py lines 27-30): derive the sentiment
column, then drop rows with a missing date, duration, sentiment or
resolved cell. -/
def normalize (rows : List RawRow) : List CallRecord :=
  rows.filterMap fun row =>
    match row.date, row.duration, sentimentCol row, row.resolved with
    | some d, some q, some s, some res =>
        some ⟨row.rating, d, q, res, s⟩
    | _, _, _, _ => none

/-- The filter inputs of `update_graphs` (app.py line 151): the sentiment
multi-dropdown (`None` and the empty list are both the empty list here),
the date-picker bounds, the optional resolved dropdown, and the duration
range-slider pair. -/
structure FilterCriteria : Type where
  sentiments : List Sentiment
  start_date : Date
  end_date : Date
  resolved : Option String
  duration_lo : ℚ
  duration_hi : ℚ
deriving DecidableEq, Repr

/-- The filter pipeline of `update_graphs` (app.py lines 152-165), clause
by clause in source order: sentiment membership only when the selection
is truthy (non-empty), then the inclusive date range, then resolved
equality only when a resolved value is truthy (present), then the
inclusive duration range. -/
def applyFilters (records : List CallRecord) (c : FilterCriteria) :
    List CallRecord :=
  let step1 :=
    if c.sentiments.isEmpty then records
    else records.filter fun r => c.sentiments.contains r.sentiment
  let step2 := step1.filter fun r =>
    Date.le c.start_date r.date && Date.le r.date c.end_date
  let step3 :=
    match c.resolved with
    | none => step2
    | some v => step2.filter fun r => r.resolved == v
  step3.filter fun r =>
    decide (c.duration_lo ≤ r.duration) && decide (r.duration ≤ c.duration_hi)

/-- Conjunction of the active clauses of the claimed characterization:
sentiment membership (skipped when the selection is empty), inclusive
date range, resolved equality (skipped when absent), inclusive duration
range. -/
def satisfies (c : FilterCriteria) (r : CallRecord) : Bool :=
  (c.sentiments.isEmpty || c.sentiments.contains r.sentiment)
  && (Date.le c.start_date r.date && Date.le r.date c.end_date)
  && (match c.resolved with
      | none => true
      | some v => r.resolved == v)
  && (decide (c.duration_lo ≤ r.duration) &&
      decide (r.duration ≤ c.duration_hi))

/-- The same pipeline with the sentiment clause removed entirely (for the
no-op comparison of the empty-sentiment claim). -/
def applyFiltersNoSentiment (records : List CallRecord) (c : FilterCriteria) :
    List CallRecord :=
  let step2 := records.filter fun r =>
    Date.le c.start_date r.date && Date.le r.date c.end_date
  let step3 :=
    match c.resolved with
    | none => step2
    | some v => step2.filter fun r => r.resolved == v
  step3.filter fun r =>
    decide (c.duration_lo ≤ r.duration) && decide (r.duration ≤ c.duration_hi)

/-- SentimentDistribution (app.py lines 167-173, the pie chart): count of
records per sentiment value present in the subset. -/
def sentimentDistribution (records : List CallRecord) : List (Sentiment × ℕ) :=
  ((records.map fun r => r.sentiment).dedup).map fun s =>
    (s, (records.filter fun r => r.sentiment == s).length)

/-- Year-month key used by `df["Date"].dt.strftime("%Y-%m")` grouping. -/
def monthKey (d : Date) : ℕ × ℕ := (d.year, d.month)

/-- SentimentTrend (app.py lines 175-180): group by calendar month, then
count per sentiment; `unstack().fillna(0)` means every month row carries a
count for every sentiment column occurring in the subset, zero when the
(month, sentiment) cell has no records. -/
def sentimentTrend (records : List CallRecord) :
    List ((ℕ × ℕ) × List (Sentiment × ℕ)) :=
  let months := (records.map fun r => monthKey r.date).dedup
  let cols := (records.map fun r => r.sentiment).dedup
  months.map fun m =>
    (m, cols.map fun s =>
      (s, (records.filter fun r =>
        decide (monthKey r.date = m) && r.sentiment == s).length))

/-- ResolutionImpact (app.py line 183): count of records grouped by the
(resolved, sentiment) pair. -/
def resolutionImpact (records : List CallRecord) :
    List ((String × Sentiment) × ℕ) :=
  ((records.map fun r => (r.resolved, r.sentiment)).dedup).map fun k =>
    (k, (records.filter fun r => decide ((r.resolved, r.sentiment) = k)).length)

/-- Five-number summary of a numeric distribution, as drawn by a box
plot. -/
structure FiveNum : Type where
  min : ℚ
  q1 : ℚ
  med : ℚ
  q3 : ℚ
  max : ℚ
deriving DecidableEq, Repr

/-- Insertion step of an ascending sort. -/
def insertAsc (x : ℚ) : List ℚ → List ℚ
  | [] => [x]
  | y :: t => if x ≤ y then x :: y :: t else y :: insertAsc x t

/-- Ascending insertion sort over ℚ. -/
def sortAsc (l : List ℚ) : List ℚ := l.foldr insertAsc []

/-- Quantile with linear interpolation at fraction `q` of a sorted list:
the value at fractional position `q * (n - 1)`, interpolated between the
two neighbouring order statistics. -/
def quantileLinear (s : List ℚ) (q : ℚ) : ℚ :=
  let n := s.length
  let pos := q * ((n : ℚ) - 1)
  let i := pos.floor.toNat
  let frac := pos - (i : ℚ)
  let lo := s.getD i 0
  let hi := s.getD (i + 1) lo
  lo + frac * (hi - lo)

/-- Five-number summary (min, quartiles by linear interpolation, max). -/
def fiveNumberSummary (xs : List ℚ) : FiveNum :=
  let s := sortAsc xs
  { min := quantileLinear s 0
    q1 := quantileLinear s (1/4)
    med := quantileLinear s (1/2)
    q3 := quantileLinear s (3/4)
    max := quantileLinear s 1 }

/-- DurationBySentiment (app.py lines 194-200, the box plot): per sentiment
present in the subset, the five-number summary of the durations. -/
def durationBySentiment (records : List CallRecord) :
    List (Sentiment × FiveNum) :=
  ((records.map fun r => r.sentiment).dedup).map fun s =>
    (s, fiveNumberSummary
      ((records.filter fun r => r.sentiment == s).map fun r => r.duration))

/-- ChurnIndicator (app.py lines 202-207): restrict to Negative-sentiment
records, then count grouped by the resolved value. -/
def churnIndicator (records : List CallRecord) : List (String × ℕ) :=
  let neg := records.filter fun r => r.sentiment == Sentiment.Negative
  ((neg.map fun r => r.resolved).dedup).map fun k =>
    (k, (neg.filter fun r => r.resolved == k).length)

/-- Row of the `past_filters` SQLite table (app.py lines 40-49). -/
structure SavedFilter : Type where
  id : ℕ
  sentiment : String
  start_date : String
  end_date : String
  resolved : String
  duration_range : String
deriving DecidableEq, Repr

/-- Criteria fields as serialized by `handle_past_data` before the INSERT
(app.py lines 239-240): plain strings. -/
structure CriteriaStrings : Type where
  sentiment : String
  start_date : String
  end_date : String
  resolved : String
  duration_range : String
deriving DecidableEq, Repr

/-- State of the `past_filters` store: the rows in table order, plus the
AUTOINCREMENT sequence value (the largest identifier ever assigned, kept
in `sqlite_sequence` and not reset by DELETE). -/
structure FilterHistoryStore : Type where
  rows : List SavedFilter
  seq : ℕ
deriving DecidableEq, Repr

/-- Freshly created (or fully reset) `past_filters` table. -/
def initStore : FilterHistoryStore := { rows := [], seq := 0 }

/-- The save action of `handle_past_data` (app.py lines 238-241): INSERT
into an `INTEGER PRIMARY KEY AUTOINCREMENT` table assigns the identifier
one past the largest ever assigned and appends the row. -/
def FilterHistoryStore.save (st : FilterHistoryStore) (c : CriteriaStrings) :
    FilterHistoryStore × SavedFilter :=
  let sf : SavedFilter :=
    { id := st.seq + 1, sentiment := c.sentiment, start_date := c.start_date,
      end_date := c.end_date, resolved := c.resolved,
      duration_range := c.duration_range }
  ({ rows := st.rows ++ [sf], seq := st.seq + 1 }, sf)

/-- The delete-all action of `handle_past_data` (app.py lines 243-245):
`DELETE FROM past_filters` removes every row; with AUTOINCREMENT the
`sqlite_sequence` entry is untouched. -/
def FilterHistoryStore.clearAll (st : FilterHistoryStore) :
    FilterHistoryStore :=
  { rows := [], seq := st.seq }

/-- The read action of `handle_past_data` (app.py line 247): `SELECT *
FROM past_filters` scans the table in rowid (identifier) order. -/
def FilterHistoryStore.listAll (st : FilterHistoryStore) : List SavedFilter :=
  st.rows

/-- Strict ascending order of the identifiers of a row list. -/
def idsAscending : List SavedFilter → Bool
  | [] => true
  | [_] => true
  | a :: b :: rest => decide (a.id < b.id) && idsAscending (b :: rest)

/-- Store invariant: rows are in strictly ascending identifier order and
every identifier lies in `[1, seq]`. -/
def FilterHistoryStore.WF (st : FilterHistoryStore) : Bool :=
  idsAscending st.rows &&
    st.rows.all fun r => decide (1 ≤ r.id) && decide (r.id ≤ st.seq)

/-- First worked example of the spec: rating 5, 2024-01-10, resolved,
duration 120 s. -/
def demoRec1 : CallRecord :=
  { rating := some 5, date := ⟨2024, 1, 10⟩, duration := 120,
    resolved := "Y", sentiment := classify_sentiment 5 }

/-- Second worked example of the spec: rating 2, 2024-01-15, unresolved,
duration 300 s. -/
def demoRec2 : CallRecord :=
  { rating := some 2, date := ⟨2024, 1, 15⟩, duration := 300,
    resolved := "N", sentiment := classify_sentiment 2 }

/-- Worked-example criteria: no sentiment selection, January 2024, no
resolved selection, durations within [0, 400]. -/
def demoCriteria : FilterCriteria :=
  { sentiments := [], start_date := ⟨2024, 1, 1⟩, end_date := ⟨2024, 1, 31⟩,
    resolved := none, duration_lo := 0, duration_hi := 400 }

/-- A raw row whose satisfaction rating cell is missing but whose other
cells parse. -/
def rowNaN : RawRow :=
  { rating := none, date := some ⟨2024, 1, 10⟩, duration := some 120,
    resolved := some "Y" }

/-- The call record normalization produces from `rowNaN`: every `dropna`
field present, rating still missing, sentiment Negative. -/
def recNaN : CallRecord :=
  { rating := none, date := ⟨2024, 1, 10⟩, duration := 120,
    resolved := "Y", sentiment := Sentiment.Negative }

/-- Serialized criteria used to exercise the history store. -/
def demoCriteriaStrings : CriteriaStrings :=
  { sentiment := "None", start_date := "2024-01-01",
    end_date := "2024-01-31", resolved := "", duration_range := "[0, 400]" }

example : applyFilters [demoRec1, demoRec2] demoCriteria
  = [demoRec1, demoRec2] := by decide

example : sentimentDistribution [demoRec1, demoRec2]
  = [(Sentiment.Positive, 1), (Sentiment.Negative, 1)] := by decide

example : churnIndicator [demoRec1, demoRec2] = [("N", 1)] := by decide

example : applyFilters [demoRec1, demoRec2]
  { demoCriteria with duration_hi := 200 } = [demoRec1] := by decide

example : durationBySentiment [demoRec1]
  = [(Sentiment.Positive, ⟨120, 120, 120, 120, 120⟩)] := by
  norm_num [durationBySentiment, fiveNumberSummary, sortAsc, insertAsc,
    quantileLinear, List.dedup_cons_of_not_mem, demoRec1, classify_sentiment,
    Rat.floor]

/-- Chronological date order is transitive. -/
theorem date_le_trans (a b c : Date) (h1 : Date.le a b = true)
    (h2 : Date.le b c = true) : Date.le a c = true := by
  unfold Date.le at *
  simp only [decide_eq_true_eq] at *
  omega

/-- A filter and its complement partition the length of a list. -/
theorem filter_length_partition {α : Type} (p : α → Bool) (l : List α) :
    (l.filter p).length + (l.filter fun x => !p x).length = l.length := by
  induction l with
  | nil => simp
  | cons a t ih =>
    cases h : p a <;> simp [List.filter_cons, h, ← ih] <;> omega

/-- Summing, over a duplicate-free covering list of keys, the number of
elements mapped to each key recovers the length of the list. -/
theorem key_partition_sum {α β : Type} [DecidableEq β] (f : α → β) :
    ∀ (ks : List β) (l : List α), ks.Nodup → (∀ x ∈ l, f x ∈ ks) →
      (ks.map fun k => (l.filter fun x => decide (f x = k)).length).sum
        = l.length := by
  intro ks
  induction ks with
  | nil =>
    intro l _ hcov
    have : l = [] := List.eq_nil_iff_forall_not_mem.mpr (by
      intro x hx
      exact absurd (hcov x hx) (List.not_mem_nil _))
    simp [this]
  | cons k ks ih =>
    intro l hnd hcov
    rw [List.nodup_cons] at hnd
    obtain ⟨hk, hnd'⟩ := hnd
    have hrest : ∀ k' ∈ ks,
        (l.filter fun x => decide (f x = k')).length
          = ((l.filter fun x => !decide (f x = k)).filter
              fun x => decide (f x = k')).length := by
      intro k' hk'
      congr 1
      rw [List.filter_filter]
      apply List.filter_congr
      intro x _
      cases hfx : decide (f x = k') with
      | false => simp
      | true =>
        have : f x = k' := of_decide_eq_true hfx
        have : f x ≠ k := by
          rw [this]
          intro hcontra
          exact hk (hcontra ▸ hk')
        simp [this]
    have hcov' : ∀ x ∈ (l.filter fun x => !decide (f x = k)), f x ∈ ks := by
      intro x hx
      rw [List.mem_filter] at hx
      obtain ⟨hxl, hxne⟩ := hx
      have := hcov x hxl
      rw [List.mem_cons] at this
      rcases this with h | h
      · simp [h] at hxne
      · exact h
    have hmap : (ks.map fun k2 => (l.filter fun x => decide (f x = k2)).length)
        = ks.map fun k2 => ((l.filter fun x => !decide (f x = k)).filter
            fun x => decide (f x = k2)).length := by
      apply List.map_congr_left
      intro k' hk'
      exact hrest k' hk'
    rw [List.map_cons, List.sum_cons, hmap, ih _ hnd' hcov',
      filter_length_partition]

/-- Taking first components of a key-tagging map recovers the key list. -/
theorem map_fst_pairing {β γ : Type} (l : List β) (g : β → γ) :
    (l.map fun k => (k, g k)).map Prod.fst = l := by
  induction l with
  | nil => rfl
  | cons x t ih => simp [ih]

/-- Appending a row whose identifier dominates a strictly ascending row
list keeps it strictly ascending. -/
theorem idsAscending_append_last (l : List SavedFilter) (sf : SavedFilter)
    (h : idsAscending l = true) (hlt : ∀ r ∈ l, r.id < sf.id) :
    idsAscending (l ++ [sf]) = true := by
  induction l with
  | nil => rfl
  | cons a t ih =>
    cases t with
    | nil =>
      simp [idsAscending]
      exact hlt a (List.mem_singleton_self a)
    | cons b t2 =>
      rw [List.cons_append, List.cons_append]
      unfold idsAscending at h ⊢
      rw [Bool.and_eq_true] at h ⊢
      refine ⟨h.1, ?_⟩
      rw [← List.cons_append]
      exact ih h.2 fun r hr => hlt r (List.mem_cons_of_mem a hr)

/-- C1. FilterEngine subset characterization: a record belongs to the
subset produced by the `update_graphs` filter pipeline exactly when it is
in the input and satisfies every active clause — sentiment membership
(when the selection is non-empty), the inclusive date range, resolved
equality (when supplied), and the inclusive duration range. -/
theorem filterEngine_subset_characterization (records : List CallRecord)
    (c : FilterCriteria) (r : CallRecord) :
    r ∈ applyFilters records c ↔ r ∈ records ∧ satisfies c r = true := by
  unfold applyFilters satisfies
  rcases hres : c.resolved with _ | v <;>
  rcases hs : c.sentiments.isEmpty <;>
    simp [List.mem_filter, hres, hs, and_assoc, Bool.and_eq_true] <;> tauto

/-- C2. Empty-sentiment no-op: when the sentiment selection is empty the
pipeline output equals — in particular has the same length as — the
output of the pipeline with the sentiment clause removed entirely. -/
theorem empty_sentiment_noop (records : List CallRecord) (c : FilterCriteria)
    (h : c.sentiments = []) :
    applyFilters records c = applyFiltersNoSentiment records c
    ∧ (applyFilters records c).length
        = (applyFiltersNoSentiment records c).length := by
  have heq : applyFilters records c = applyFiltersNoSentiment records c := by
    unfold applyFilters applyFiltersNoSentiment
    simp [h]
  exact ⟨heq, by rw [heq]⟩

/-- Witness for C2: the spec's worked example with an empty sentiment
selection takes the no-op branch. -/
theorem empty_sentiment_noop_witness :
    applyFilters [demoRec1, demoRec2] demoCriteria
      = applyFiltersNoSentiment [demoRec1, demoRec2] demoCriteria :=
  (empty_sentiment_noop [demoRec1, demoRec2] demoCriteria rfl).1

/-- C3. Sentiment classification trichotomy over integer ratings: Positive
exactly for ratings at least 4, Neutral exactly for 3, Negative exactly
for ratings at most 2, negative values included; the function is total. -/
theorem classify_sentiment_trichotomy (r : ℤ) :
    (classify_sentiment (r : ℚ) = Sentiment.Positive ↔ 4 ≤ r)
    ∧ (classify_sentiment (r : ℚ) = Sentiment.Neutral ↔ r = 3)
    ∧ (classify_sentiment (r : ℚ) = Sentiment.Negative ↔ r ≤ 2) := by
  unfold classify_sentiment
  split_ifs with h1 h2
  · have h1i : (4 : ℤ) ≤ r := by exact_mod_cast h1
    refine ⟨?_, ?_, ?_⟩ <;> simp <;> omega
  · have h1i : ¬ (4 : ℤ) ≤ r := fun hc => h1 (by exact_mod_cast hc)
    have h2i : r = 3 := by exact_mod_cast h2
    refine ⟨?_, ?_, ?_⟩ <;> simp <;> omega
  · have h1i : ¬ (4 : ℤ) ≤ r := fun hc => h1 (by exact_mod_cast hc)
    have h2i : r ≠ 3 := fun hc => h2 (by exact_mod_cast hc)
    refine ⟨?_, ?_, ?_⟩ <;> simp <;> omega

/-- C4 counterexample: a raw row with a missing satisfaction rating and
all other cells present is kept by normalization, because the derived
sentiment of a missing rating is Negative, not missing — so a missing
rating does not block classification and does not drop the row, and the
retained record's rating field is unpopulated. -/
theorem row_retention_rating_counterexample :
    rowNaN.rating = none ∧ keepRow rowNaN = true
    ∧ normalize [rowNaN] = [recNaN] := by
  refine ⟨rfl, rfl, rfl⟩

/-- C4 amended: a row is dropped by normalization exactly when its
timestamp, duration or resolved cell is missing after parsing — the
derived sentiment is never missing, so the rating never causes a drop —
and every retained record's sentiment is the pure classification of its
rating cell. -/
theorem row_retention_amended :
    (∀ row : RawRow, keepRow row = false
      ↔ (row.date = none ∨ row.duration = none ∨ row.resolved = none))
    ∧ (∀ (rows : List RawRow) (rec : CallRecord), rec ∈ normalize rows →
        rec.sentiment = classifySentimentCell rec.rating) := by
  constructor
  · intro row
    unfold keepRow sentimentCol
    rcases row with ⟨rat, d, q, res⟩
    rcases d <;> rcases q <;> rcases res <;> simp
  · intro rows rec hmem
    unfold normalize at hmem
    rw [List.mem_filterMap] at hmem
    obtain ⟨row, _, hrow⟩ := hmem
    rcases hd : row.date with _ | d <;> rcases hq : row.duration with _ | q <;>
      rcases hres : row.resolved with _ | res <;>
        simp [hd, hq, hres, sentimentCol] at hrow
    rw [← hrow]

/-- Witness for C4 amended: the record normalized from the NaN-rating row
carries the classification of its missing rating cell. -/
theorem row_retention_amended_witness :
    recNaN.sentiment = classifySentimentCell recNaN.rating :=
  row_retention_amended.2 [rowNaN] recNaN (by decide)

/-- C5. ChurnIndicator conservation: its counts sum to exactly the number
of Negative-sentiment records in the subset, and its group keys are
exactly the resolved values occurring among those records. -/
theorem churnIndicator_conservation (records : List CallRecord) :
    ((churnIndicator records).map Prod.snd).sum
      = (records.filter fun r => r.sentiment == Sentiment.Negative).length
    ∧ (churnIndicator records).map Prod.fst
      = ((records.filter fun r => r.sentiment == Sentiment.Negative).map
          fun r => r.resolved).dedup := by
  constructor
  · unfold churnIndicator
    rw [List.map_map]
    have := key_partition_sum (fun r : CallRecord => r.resolved)
      ((records.filter fun r => r.sentiment == Sentiment.Negative).map
        fun r => r.resolved).dedup
      (records.filter fun r => r.sentiment == Sentiment.Negative)
      (List.nodup_dedup _)
      (by
        intro x hx
        rw [List.mem_dedup]
        exact List.mem_map_of_mem _ hx)
    rw [← this]
    congr 1
  · unfold churnIndicator
    exact map_fst_pairing _ _

/-- C6. Identifier monotonicity: on any well-formed store a save appends
the returned record, assigns it an identifier strictly greater than every
stored one, preserves well-formedness (hence ascending listing order),
assigns identifiers from 1 up on a fresh store, and a deletion does not
free identifiers for reuse. -/
theorem save_identifier_monotonic (st : FilterHistoryStore)
    (c : CriteriaStrings) (h : st.WF = true) :
    (st.save c).2 ∈ (st.save c).1.listAll
    ∧ (∀ r ∈ st.listAll, r.id < (st.save c).2.id)
    ∧ (st.save c).1.WF = true
    ∧ idsAscending (st.save c).1.listAll = true
    ∧ 1 ≤ (st.save c).2.id
    ∧ (initStore.save c).2.id = 1
    ∧ (∀ r ∈ st.listAll, r.id < (st.clearAll.save c).2.id) := by
  unfold FilterHistoryStore.WF at h
  rw [Bool.and_eq_true, List.all_eq_true] at h
  obtain ⟨hasc, hbound⟩ := h
  have hlt : ∀ r ∈ st.listAll, r.id < (st.save c).2.id := by
    intro r hr
    have := hbound r hr
    rw [Bool.and_eq_true, decide_eq_true_eq, decide_eq_true_eq] at this
    simp only [FilterHistoryStore.save]
    omega
  have hasc' : idsAscending (st.save c).1.listAll = true :=
    idsAscending_append_last st.rows _ hasc hlt
  refine ⟨?_, hlt, ?_, hasc', ?_, rfl, ?_⟩
  · unfold FilterHistoryStore.save FilterHistoryStore.listAll
    simp
  · unfold FilterHistoryStore.WF
    rw [Bool.and_eq_true, List.all_eq_true]
    refine ⟨hasc', ?_⟩
    intro r hr
    unfold FilterHistoryStore.save at hr
    simp only [List.mem_append, List.mem_singleton] at hr
    rw [Bool.and_eq_true, decide_eq_true_eq, decide_eq_true_eq]
    rcases hr with hr | hr
    · have := hbound r hr
      rw [Bool.and_eq_true, decide_eq_true_eq, decide_eq_true_eq] at this
      simp only [FilterHistoryStore.save]
      omega
    · rw [hr]
      simp only [FilterHistoryStore.save]
      omega
  · simp only [FilterHistoryStore.save]
    omega
  · intro r hr
    have := hlt r hr
    simp only [FilterHistoryStore.save, FilterHistoryStore.clearAll] at *
    omega

/-- Witness for C6: saving into the empty well-formed store yields a
listed record. -/
theorem save_identifier_monotonic_witness :
    initStore.WF = true
    ∧ (initStore.save demoCriteriaStrings).2
        ∈ (initStore.save demoCriteriaStrings).1.listAll
    ∧ (initStore.save demoCriteriaStrings).1.WF = true :=
  ⟨rfl, (save_identifier_monotonic initStore demoCriteriaStrings rfl).1,
    (save_identifier_monotonic initStore demoCriteriaStrings rfl).2.2.1⟩

/-- C7. clearAll postcondition: a delete-all empties the listing while
leaving the AUTOINCREMENT sequence untouched, so the next save gets the
same identifier it would have received without the deletion; the cleared
store is well-formed. -/
theorem clearAll_postcondition (st : FilterHistoryStore)
    (c : CriteriaStrings) :
    st.clearAll.listAll = []
    ∧ (st.clearAll.save c).2.id = (st.save c).2.id
    ∧ st.clearAll.seq = st.seq
    ∧ st.clearAll.WF = true := by
  refine ⟨rfl, rfl, rfl, rfl⟩

/-- C8. Empty-input totality: each of the five aggregations of the
dashboard returns the empty result set on the empty filtered subset. -/
theorem aggregations_empty_input :
    sentimentDistribution [] = [] ∧ sentimentTrend [] = []
    ∧ resolutionImpact [] = [] ∧ durationBySentiment [] = []
    ∧ churnIndicator [] = [] := by
  refine ⟨rfl, rfl, rfl, rfl, rfl⟩

/-- C9. Inverted-range policy: criteria whose date range has start after
end, or whose duration range has min above max, are not rejected — the
pipeline simply returns the empty subset, since no record can meet both
inclusive bounds. -/
theorem inverted_range_empty_subset (records : List CallRecord)
    (c : FilterCriteria)
    (h : Date.le c.start_date c.end_date = false
      ∨ c.duration_hi < c.duration_lo) :
    applyFilters records c = [] := by
  rcases h with h | h
  · unfold applyFilters
    have hdate : ∀ r : CallRecord,
        (Date.le c.start_date r.date && Date.le r.date c.end_date) = false := by
      intro r
      by_contra hc
      rw [Bool.and_eq_false_iff] at hc
      push_neg at hc
      obtain ⟨h1, h2⟩ := hc
      rw [Bool.ne_false_iff] at h1 h2
      exact absurd (date_le_trans _ _ _ h1 h2) (by simp [h])
    rcases c.resolved with _ | v <;>
      simp [List.filter_eq_nil_iff, hdate]
  · unfold applyFilters
    have hdur : ∀ r : CallRecord,
        (decide (c.duration_lo ≤ r.duration) &&
          decide (r.duration ≤ c.duration_hi)) = false := by
      intro r
      rw [Bool.and_eq_false_iff]
      by_contra hc
      push_neg at hc
      obtain ⟨h1, h2⟩ := hc
      rw [Bool.ne_false_iff, decide_eq_true_eq] at h1 h2
      exact absurd (le_trans h1 h2) (not_le.mpr h)
    rcases c.resolved with _ | v <;>
      simp [List.filter_eq_nil_iff, hdur]

/-- Witness for C9: an inverted duration range on the worked example
yields the empty subset. -/
theorem inverted_range_empty_subset_witness :
    applyFilters [demoRec1, demoRec2]
      { demoCriteria with duration_lo := 400, duration_hi := 0 } = [] :=
  inverted_range_empty_subset [demoRec1, demoRec2]
    { demoCriteria with duration_lo := 400, duration_hi := 0 }
    (Or.inr (by norm_num))

/-- C10. Missing-rating totality: classification of a missing (NaN)
rating cell is Negative, the derived sentiment column is never missing,
and whether `dropna` keeps a row depends only on the date, duration and
resolved cells — never on the rating. -/
theorem missing_rating_totality :
    classifySentimentCell none = Sentiment.Negative
    ∧ (∀ row : RawRow, (sentimentCol row).isSome = true)
    ∧ (∀ row : RawRow, keepRow row
        = (row.date.isSome && row.duration.isSome && row.resolved.isSome)) := by
  refine ⟨rfl, fun row => rfl, fun row => ?_⟩
  unfold keepRow sentimentCol
  rcases row.date <;> rcases row.duration <;> rcases row.resolved <;> simp

end CallCenter
